import Mathlib

/-!
Verification of the PeerIslands Codebase-Analyzer core against its design
specification.

The development shallowly embeds the Python sources:
  * `src/chunker.py`   — `CodeChunk`, `CodeChunker.create_chunks`,
                         `CodeChunker.create_project_overview_chunk`
  * `src/llm_provider.py` — the response-parsing part of
                         `LLMProvider.analyze_code_chunk`
  * `src/analyzer.py`  — `CodeAnalyzer.analyze_complexity` and the
                         per-chunk loop of `analyze_with_llm`
  * `src/output_formatter.py` — `_format_detailed_analysis`,
                         `_format_complexity_analysis`

External collaborators (tiktoken's token counter, the LLM transport,
Python's `json.loads`, radon's `cc_visit`) are modelled as explicit
function parameters, exactly as the spec treats them (black-box cost
estimator / summarizer / metrics collaborators).

Python-specific primitives (`str.find`, slicing, `strip`, `join`,
lexicographic string order by code point) are embedded as structural
functions over `List Char` so that every definition evaluates inside the
kernel.  Python's `sorted` is a stable sort; it is embedded with
`List.insertionSort`, which coincides with any stable sort whenever the
sort keys are pairwise distinct — the situation every claim below is
about (relative paths are unique within a run).
-/

set_option maxRecDepth 100000

/-! ## Python string primitives -/

/-- Python's `"sep".join(parts)`. -/
def pyJoin (sep : String) : List String → String
  | [] => ""
  | [x] => x
  | x :: y :: xs => x ++ sep ++ pyJoin sep (y :: xs)

/-- Lexicographic `≤` on code-point sequences: Python's `<=` on `str`. -/
def lexLe : List Char → List Char → Bool
  | [], _ => true
  | _ :: _, [] => false
  | a :: as, b :: bs =>
    if a.toNat < b.toNat then true
    else if b.toNat < a.toNat then false
    else lexLe as bs

/-- `sub` occurs in `s` starting at position `i`. -/
def isSubAt (s sub : List Char) (i : Nat) : Bool :=
  sub.isPrefixOf (s.drop i)

/-- Python's `s.find(sub, start)`: least index `≥ start` where `sub`
occurs, `-1` when there is none. -/
def pyFindFrom (s sub : List Char) (start : Nat) : Int :=
  match (List.range (s.length + 1)).find? (fun i => decide (start ≤ i) && isSubAt s sub i) with
  | some i => (i : Int)
  | none => -1

/-- Python's `sub in s` substring test. -/
def pyContains (s sub : List Char) : Bool :=
  decide (0 ≤ pyFindFrom s sub 0)

/-- Clamp a (possibly negative) Python index into `[0, len]`. -/
def pyIndex (len : Nat) (i : Int) : Nat :=
  if i < 0 then (max 0 (i + len)).toNat else min i.toNat len

/-- Python's slice `s[a:b]` with full negative-index semantics. -/
def pySlice (s : List Char) (a b : Int) : List Char :=
  (s.take (pyIndex s.length b)).drop (pyIndex s.length a)

/-- Python whitespace recognised by `str.strip()`. -/
def isPySpace (c : Char) : Bool :=
  c = ' ' || c = '\t' || c = '\n' || c = '\r' || c = '\x0b' || c = '\x0c'

/-- Python's `s.strip()`. -/
def pyStrip (s : List Char) : List Char :=
  ((s.dropWhile isPySpace).reverse.dropWhile isPySpace).reverse

/-- Python's `s.lower()` (sufficient for ASCII paths). -/
def pyLower (s : String) : String :=
  String.mk (s.toList.map Char.toLower)

/-! ## Data model: `CodeFile` and `CodeChunk` (repository_manager.py, chunker.py) -/

/-- `CodeFile` from `repository_manager.py` (`size` is derived:
`len(content)`). -/
structure CodeFile where
  path : String
  relative_path : String
  content : String
  extension : String
deriving Repr, DecidableEq

/-- `CodeChunk` from `chunker.py`: files, id, and the recorded
`token_count` (there is no other metadata — in particular no
oversized flag). -/
structure CodeChunk where
  files : List CodeFile
  chunk_id : Nat
  token_count : Nat
deriving Repr, DecidableEq

/-- The five text parts `CodeChunk.to_text` emits per file.  Python's
`len(content.split(chr(10)))` equals the number of newline characters
plus one. -/
def fileEntryParts (f : CodeFile) : List String :=
  ["=== File: " ++ f.relative_path ++ " ===",
   "Extension: " ++ f.extension,
   "Lines: " ++ toString (f.content.toList.count '\n' + 1),
   "\nContent:\n" ++ f.content ++ "\n",
   String.mk (List.replicate 80 '=')]

/-- `CodeChunk.to_text` applied to a file list: all per-file parts joined
with `"\n"`. -/
def chunkText (files : List CodeFile) : String :=
  pyJoin "\n" (files.flatMap fileEntryParts)

/-- `CodeChunk.to_text`. -/
def CodeChunk.to_text (c : CodeChunk) : String :=
  chunkText c.files

/-- Ordering of files used by `sorted(code_files, key=lambda f: f.relative_path)`. -/
def pathLe (a b : CodeFile) : Prop :=
  lexLe a.relative_path.toList b.relative_path.toList = true

instance : DecidableRel pathLe := fun a b => by
  unfold pathLe
  infer_instance

/-- `sorted(code_files, key=lambda f: f.relative_path)`.  Python's sort is
stable; `insertionSort` agrees with it whenever relative paths are
pairwise distinct. -/
def sortByPath (files : List CodeFile) : List CodeFile :=
  List.insertionSort pathLe files

/-! ## `CodeChunker.create_chunks` (chunker.py lines 52–114)

The token counter (`tiktoken`) is the external cost estimator; it is a
parameter `cost : String → Nat`.  The budget is
`config.max_tokens_per_chunk`, a parameter `max_tokens : Nat`. -/

/-- Loop state of `create_chunks`. -/
structure ChunkState where
  chunks : List CodeChunk
  current_chunk_files : List CodeFile
  current_tokens : Nat
  chunk_id : Nat
deriving Repr, DecidableEq

/-- One iteration of the `for file in sorted_files` loop of
`create_chunks`: first the overflow branch (lines 78–91), then the
single-file branch guarded by
`test_tokens > self.max_tokens and not current_chunk_files[:-1]`
(lines 94–104), evaluated on the state the first branch produced. -/
def create_chunks_step (cost : String → Nat) (max_tokens : Nat)
    (s : ChunkState) (file : CodeFile) : ChunkState :=
  let test_tokens := cost (chunkText (s.current_chunk_files ++ [file]))
  let s1 : ChunkState :=
    if test_tokens > max_tokens ∧ s.current_chunk_files ≠ [] then
      { chunks := s.chunks ++ [⟨s.current_chunk_files, s.chunk_id, s.current_tokens⟩],
        current_chunk_files := [file],
        current_tokens := cost (chunkText [file]),
        chunk_id := s.chunk_id + 1 }
    else
      { s with
        current_chunk_files := s.current_chunk_files ++ [file],
        current_tokens := test_tokens }
  if test_tokens > max_tokens ∧ s1.current_chunk_files.dropLast = [] then
    { chunks := s1.chunks ++ [⟨[file], s1.chunk_id, test_tokens⟩],
      current_chunk_files := [],
      current_tokens := 0,
      chunk_id := s1.chunk_id + 1 }
  else
    s1

/-- `CodeChunker.create_chunks`: sort by relative path, run the loop,
flush the remaining files as a final chunk. -/
def create_chunks (cost : String → Nat) (max_tokens : Nat)
    (code_files : List CodeFile) : List CodeChunk :=
  let s := (sortByPath code_files).foldl (create_chunks_step cost max_tokens)
    ⟨[], [], 0, 0⟩
  if s.current_chunk_files ≠ [] then
    s.chunks ++ [⟨s.current_chunk_files, s.chunk_id, s.current_tokens⟩]
  else
    s.chunks

/-! ## The chunking algorithm as the spec describes it (§4.1)

Used only to exhibit where `create_chunks` diverges from the spec's
overflow step (claim about lines 77–104).  This definition follows the
spec's words, not the source. -/

/-- State of the spec's §4.1 algorithm: sealed chunks (document list plus
oversized flag) and the pending window. -/
structure SpecChunkState where
  sealed : List (List CodeFile × Bool)
  pending : List CodeFile
deriving Repr, DecidableEq

/-- Steps (b)–(d) of the spec's §4.1 algorithm for one document. -/
def spec_chunk_step (cost : String → Nat) (budget : Nat)
    (s : SpecChunkState) (d : CodeFile) : SpecChunkState :=
  let candidate := cost (chunkText (s.pending ++ [d]))
  if s.pending = [] ∧ candidate > budget then
    { sealed := s.sealed ++ [([d], true)], pending := [] }
  else if s.pending ≠ [] ∧ candidate > budget then
    if cost (chunkText [d]) > budget then
      { sealed := s.sealed ++ [(s.pending, false), ([d], true)], pending := [] }
    else
      { sealed := s.sealed ++ [(s.pending, false)], pending := [d] }
  else
    { s with pending := s.pending ++ [d] }

/-- The spec's §4.1 chunking algorithm: sort by path, fold the step,
seal a non-empty pending window as the final chunk. -/
def spec_chunks (cost : String → Nat) (budget : Nat)
    (docs : List CodeFile) : List (List CodeFile × Bool) :=
  let s := (sortByPath docs).foldl (spec_chunk_step cost budget) ⟨[], []⟩
  if s.pending ≠ [] then s.sealed ++ [(s.pending, false)] else s.sealed

/-! ## `CodeChunker.create_project_overview_chunk` (chunker.py lines 116–150) -/

/-- `ext = file.extension or "no_extension"` (empty string is falsy). -/
def extKey (ext : String) : String :=
  if ext = "" then "no_extension" else ext

/-- One iteration of the `files_by_ext` accumulation: append the path
under its extension key, preserving dict insertion order. -/
def addToExtMap (m : List (String × List String)) (ext path : String) :
    List (String × List String) :=
  if m.any (fun p => p.1 = ext) then
    m.map (fun p => if p.1 = ext then (p.1, p.2 ++ [path]) else p)
  else
    m ++ [(ext, path :: [])]

/-- `"readme" in file.relative_path.lower()`. -/
def isReadmeFile (f : CodeFile) : Bool :=
  pyContains (pyLower f.relative_path).toList "readme".toList

/-- One iteration of the `for file in code_files` loop of
`create_project_overview_chunk`: extend `files_by_ext` and overwrite
`readme_content` on a readme match. -/
def overviewScanStep (acc : List (String × List String) × Option String)
    (f : CodeFile) : List (String × List String) × Option String :=
  (addToExtMap acc.1 (extKey f.extension) f.relative_path,
   if isReadmeFile f then some f.content else acc.2)

/-- The single `for file in code_files` loop of
`create_project_overview_chunk`. -/
def overviewScan (code_files : List CodeFile) :
    List (String × List String) × Option String :=
  code_files.foldl overviewScanStep ([], none)

/-- Ordering of `sorted(files_by_ext.items())`.  Keys in the map are
unique by construction, so Python's tuple comparison never reaches the
second component and this key comparison is its exact behaviour. -/
def extItemLe (a b : String × List String) : Prop :=
  lexLe a.1.toList b.1.toList = true

instance : DecidableRel extItemLe := fun a b => by
  unfold extItemLe
  infer_instance

/-- Ordering of `sorted(files)` over path strings within one extension
group (paths are unique, so stability is irrelevant). -/
def strLe (a b : String) : Prop :=
  lexLe a.toList b.toList = true

instance : DecidableRel strLe := fun a b => by
  unfold strLe
  infer_instance

/-- The lines emitted for one `(ext, files)` group (chunker.py lines
138–143). -/
def extSection (p : String × List String) : List String :=
  ("\n" ++ p.1 ++ " files (" ++ toString p.2.length ++ "):") ::
    ((List.insertionSort strLe p.2).take 50).map (fun fp => "  - " ++ fp) ++
    (if p.2.length > 50 then
       ["  ... and " ++ toString (p.2.length - 50) ++ " more"]
     else [])

/-- The overview parts as a function of the scan results (structure
sections, then the readme section when `readme_content` is truthy). -/
def overviewParts (m : List (String × List String)) (readme : Option String) :
    List String :=
  let structureParts :=
    "=== PROJECT STRUCTURE ===\n" ::
      ((List.insertionSort extItemLe m).flatMap extSection)
  match readme with
  | some c => if c ≠ "" then structureParts ++ ["\n\n=== README CONTENT ===\n", c]
              else structureParts
  | none => structureParts

/-- `CodeChunker.create_project_overview_chunk`. -/
def create_project_overview_chunk (code_files : List CodeFile) : String :=
  let scan := overviewScan code_files
  pyJoin "\n" (overviewParts scan.1 scan.2)

/-! ## `LLMProvider.analyze_code_chunk` response handling (llm_provider.py lines 139–161)

The LLM transport and Python's `json.loads` are external collaborators;
`json.loads` (restricted to the shape the formatter reads) is a
parameter `parseJson : String → Except String ChunkAnalysis` whose
`Except.error` case is a raised `json.JSONDecodeError` with its message. -/

/-- The fence-extraction step that reassigns `response` before
`json.loads` (llm_provider.py lines 143–150). -/
def extract_json_payload (response : String) : String :=
  let r := response.toList
  let fj := "```json".toList
  let f3 := "```".toList
  if pyContains r fj then
    let js : Int := pyFindFrom r fj 0 + 7
    let je : Int := pyFindFrom r f3 js.toNat
    String.mk (pyStrip (pySlice r js je))
  else if pyContains r f3 then
    let js : Int := pyFindFrom r f3 0 + 3
    let je : Int := pyFindFrom r f3 js.toNat
    String.mk (pyStrip (pySlice r js je))
  else
    response

/-- One method entry inside a parsed per-class `methods` list
(`m.get(...)` defaults apply when a key is absent). -/
structure MethodEntry where
  name : Option String
  signature : Option String
  description : Option String
  complexity : Option String
deriving Repr, DecidableEq

/-- One class entry inside a parsed per-file `classes` list. -/
structure ClassEntry where
  name : Option String
  purpose : Option String
  methods : Option (List MethodEntry)
  relationships : Option (List String)
deriving Repr, DecidableEq

/-- One entry of a parsed per-file `key_functions` list. -/
structure KeyFunctionEntry where
  name : Option String
  description : Option String
deriving Repr, DecidableEq

/-- One entry of a parsed chunk's `files` list. -/
structure FileEntry where
  path : Option String
  classes : Option (List ClassEntry)
  key_functions : Option (List KeyFunctionEntry)
deriving Repr, DecidableEq

/-- A per-chunk analysis dict as consumed by the formatter: either the
dict `json.loads` produced, or the fallback dict built on parse failure
(`chunk_id`, `files: []`, `raw_response`, `parse_error`).  `none` models
an absent key. -/
structure ChunkAnalysis where
  chunk_id : Option Nat
  files : Option (List FileEntry)
  raw_response : Option String
  parse_error : Option String
deriving Repr, DecidableEq

/-- The parse-and-fallback tail of `LLMProvider.analyze_code_chunk`,
applied to the summarizer's response text. -/
def analyze_code_chunk (parseJson : String → Except String ChunkAnalysis)
    (response : String) (chunk_id : Nat) : ChunkAnalysis :=
  let payload := extract_json_payload response
  match parseJson payload with
  | Except.ok v => v
  | Except.error e =>
      { chunk_id := some chunk_id,
        files := some [],
        raw_response := some payload,
        parse_error := some e }

/-! ## `CodeAnalyzer.analyze_with_llm` per-chunk loop (analyzer.py lines 170–177)

The prompt construction plus LLM transport of one call is the external
oracle `respond : String → Nat → Nat → String`, mapping
(chunk text, chunk index, total chunks) to the response text. -/

/-- The `for i, chunk in enumerate(chunks)` loop collecting
`chunk_analyses`. -/
def analyze_chunks_loop (parseJson : String → Except String ChunkAnalysis)
    (respond : String → Nat → Nat → String)
    (chunks : List CodeChunk) : List ChunkAnalysis :=
  chunks.enum.map
    (fun p => analyze_code_chunk parseJson (respond p.2.to_text p.1 chunks.length) p.1)

/-! ## `OutputFormatter._format_detailed_analysis` (output_formatter.py lines 119–162) -/

/-- One formatted `key_methods` entry. -/
structure MethodOut where
  name : String
  signature : String
  description : String
  complexity : String
deriving Repr, DecidableEq

/-- One formatted class entry (`class_info`). -/
structure ClassOut where
  name : String
  file : String
  purpose : String
  method_count : Nat
  key_methods : List MethodOut
  relationships : List String
deriving Repr, DecidableEq

/-- One formatted key-function entry. -/
structure KeyFunctionOut where
  name : String
  file : String
  description : String
deriving Repr, DecidableEq

/-- The dict `_format_detailed_analysis` returns. -/
structure DetailedAnalysisOut where
  total_classes_identified : Nat
  total_key_functions_identified : Nat
  classes : List ClassOut
  key_functions : List KeyFunctionOut
deriving Repr, DecidableEq

/-- The class entries one parsed file entry contributes. -/
def classesOfFileEntry (fa : FileEntry) : List ClassOut :=
  (fa.classes.getD []).map (fun cls =>
    { name := cls.name.getD "",
      file := fa.path.getD "unknown",
      purpose := cls.purpose.getD "",
      method_count := (cls.methods.getD []).length,
      key_methods := ((cls.methods.getD []).take 5).map (fun m =>
        { name := m.name.getD "",
          signature := m.signature.getD "",
          description := m.description.getD "",
          complexity := m.complexity.getD "unknown" }),
      relationships := cls.relationships.getD [] })

/-- The key-function entries one parsed file entry contributes. -/
def keyFunctionsOfFileEntry (fa : FileEntry) : List KeyFunctionOut :=
  (fa.key_functions.getD []).map (fun f =>
    { name := f.name.getD "",
      file := fa.path.getD "unknown",
      description := f.description.getD "" })

/-- The file entries of one chunk analysis; a chunk without a `files`
key contributes nothing (`if "files" in chunk`). -/
def fileEntriesOf (c : ChunkAnalysis) : List FileEntry :=
  match c.files with
  | some fs => fs
  | none => []

/-- `OutputFormatter._format_detailed_analysis`: flatten classes and key
functions across chunks in order, cap `key_functions` to the first 50. -/
def format_detailed_analysis (chunk_analyses : List ChunkAnalysis) :
    DetailedAnalysisOut :=
  let all_classes := chunk_analyses.flatMap
    (fun c => (fileEntriesOf c).flatMap classesOfFileEntry)
  let all_key_functions := chunk_analyses.flatMap
    (fun c => (fileEntriesOf c).flatMap keyFunctionsOfFileEntry)
  { total_classes_identified := all_classes.length,
    total_key_functions_identified := all_key_functions.length,
    classes := all_classes,
    key_functions := all_key_functions.take 50 }

/-! ## `CodeAnalyzer.analyze_complexity` (analyzer.py lines 23–97)

radon's `cc_visit` is the external metrics collaborator; it is a
parameter `cc : String → Option (List CCItem)` where `none` models a
raised exception (the `except` branch skips the file). -/

/-- One entity returned by `cc_visit`. -/
structure CCItem where
  name : String
  complexity : Nat
  letter : String
  lineno : Nat
deriving Repr, DecidableEq

/-- `CodeAnalyzer._classify_complexity`. -/
def classify_complexity (score : Nat) : String :=
  if score ≤ 5 then "low" else if score ≤ 10 then "medium" else "high"

/-- One per-entity record inside a file's `functions` list. -/
structure FunctionComplexity where
  name : String
  complexity : Nat
  type : String
  line : Nat
  complexity_level : String
deriving Repr, DecidableEq

/-- One `file_complexity` record. -/
structure FileComplexity where
  path : String
  functions : List FunctionComplexity
  max_complexity : Nat
  complexity_level : String
deriving Repr, DecidableEq

/-- One entry of `summary.high_complexity_files`. -/
structure HighComplexityFile where
  path : String
  max_complexity : Nat
deriving Repr, DecidableEq

/-- The `summary` sub-dict of `analyze_complexity`'s result.  The float
`round(total/count, 2)` is modelled over exact rationals. -/
structure ComplexitySummary where
  total_files : Nat
  analyzed_files : Nat
  high_complexity_files : List HighComplexityFile
  average_complexity : Rat
deriving Repr, DecidableEq

/-- The dict `analyze_complexity` returns. -/
structure ComplexityResults where
  files : List FileComplexity
  summary : ComplexitySummary
deriving Repr, DecidableEq

/-- Mathematical floor of a rational, computable in the kernel. -/
def ratFloor (q : Rat) : Int :=
  Int.fdiv q.num q.den

/-- Python 3 `round` to an integer: round-half-to-even. -/
def pyRoundHalfEven (q : Rat) : Int :=
  let f := ratFloor q
  if q - f < 1/2 then f
  else if q - f > 1/2 then f + 1
  else if f % 2 = 0 then f else f + 1

/-- Python's `round(x, 2)` over exact rationals. -/
def pyRound2 (q : Rat) : Rat :=
  (pyRoundHalfEven (q * 100) : Rat) / 100

/-- Accumulators of the `for file in code_files` loop of
`analyze_complexity`. -/
structure AnalyzeState where
  files : List FileComplexity
  high : List HighComplexityFile
  total : Nat
  count : Nat
deriving Repr, DecidableEq

/-- One iteration of `analyze_complexity`'s loop: skip unsupported
extensions, skip files `cc_visit` raises on, otherwise record the file,
its maximum score, and the running totals. -/
def analyze_complexity_step (cc : String → Option (List CCItem))
    (s : AnalyzeState) (f : CodeFile) : AnalyzeState :=
  if f.extension = ".py" ∨ f.extension = ".java" then
    match cc f.content with
    | none => s
    | some items =>
      let maxc := items.foldl (fun m it => max m it.complexity) 0
      let fc : FileComplexity :=
        { path := f.relative_path,
          functions := items.map (fun it =>
            { name := it.name,
              complexity := it.complexity,
              type := it.letter,
              line := it.lineno,
              complexity_level := classify_complexity it.complexity }),
          max_complexity := maxc,
          complexity_level := classify_complexity maxc }
      { files := s.files ++ [fc],
        high := if maxc > 10 then s.high ++ [⟨f.relative_path, maxc⟩] else s.high,
        total := s.total + maxc,
        count := s.count + 1 }
  else
    s

/-- `CodeAnalyzer.analyze_complexity`. -/
def analyze_complexity (cc : String → Option (List CCItem))
    (code_files : List CodeFile) : ComplexityResults :=
  let s := code_files.foldl (analyze_complexity_step cc) ⟨[], [], 0, 0⟩
  { files := s.files,
    summary :=
      { total_files := code_files.length,
        analyzed_files := s.count,
        high_complexity_files := s.high,
        average_complexity :=
          if s.count > 0 then pyRound2 ((s.total : Rat) / (s.count : Rat)) else 0 } }

/-! ## `OutputFormatter._format_complexity_analysis` (output_formatter.py lines 82–117) -/

/-- One formatted `complex_functions` entry. -/
structure ComplexFunctionOut where
  name : String
  complexity : Nat
  line : Nat
deriving Repr, DecidableEq

/-- One `detailed_metrics` entry. -/
structure DetailedMetricOut where
  file : String
  max_complexity : Nat
  complexity_level : String
  complex_functions : List ComplexFunctionOut
deriving Repr, DecidableEq

/-- The dict `_format_complexity_analysis` returns (summary fields
inlined). -/
structure ComplexityAnalysisOut where
  total_files_analyzed : Nat
  average_complexity : Rat
  high_complexity_count : Nat
  high_complexity_files : List HighComplexityFile
  detailed_metrics : List DetailedMetricOut
deriving Repr, DecidableEq

/-- `OutputFormatter._format_complexity_analysis` on a non-empty
`complexity_data` dict (the shape `analyze_complexity` always
produces): `high_complexity_files` is passed through uncapped;
`detailed_metrics` filters files with max score `> 5`, keeps per file
the first 10 entities with score `> 5`, and caps the file list to 20. -/
def format_complexity_analysis (d : ComplexityResults) : ComplexityAnalysisOut :=
  { total_files_analyzed := d.summary.analyzed_files,
    average_complexity := d.summary.average_complexity,
    high_complexity_count := d.summary.high_complexity_files.length,
    high_complexity_files := d.summary.high_complexity_files,
    detailed_metrics :=
      ((d.files.filter (fun f => f.max_complexity > 5)).map (fun f =>
        { file := f.path,
          max_complexity := f.max_complexity,
          complexity_level := f.complexity_level,
          complex_functions :=
            ((f.functions.filter (fun g => g.complexity > 5)).map (fun g =>
              { name := g.name, complexity := g.complexity, line := g.line })).take 10
        })).take 20 }

/-! ## Auxiliary notions used by the statements -/

/-- Documents accounted for by a `create_chunks` loop state: files of
sealed chunks (in order) followed by the pending files. -/
def emittedFiles (s : ChunkState) : List CodeFile :=
  s.chunks.flatMap CodeChunk.files ++ s.current_chunk_files

/-- Strict path order: `pathLe` together with distinct paths. -/
def pathLt (a b : CodeFile) : Prop :=
  pathLe a b ∧ a.relative_path ≠ b.relative_path

/-- The `files_by_ext` accumulation as a function of
`(relative_path, extension)` pairs only. -/
def extMapOfPairs (ps : List (String × String)) : List (String × List String) :=
  ps.foldl (fun m p => addToExtMap m (extKey p.2) p.1) []

/-! ## Concrete fixtures for witnesses and counterexamples -/

/-- A concrete cost estimator for concrete runs: the character count. -/
def costLen (s : String) : Nat :=
  s.length

/-- Fixture file `a.py`; `costLen (chunkText [fxA]) = 145`. -/
def fxA : CodeFile :=
  ⟨"a.py", "a.py", "XXXXXXXXXX", ".py"⟩

/-- Fixture file `b.py`; `costLen (chunkText [fxB]) = 136`. -/
def fxB : CodeFile :=
  ⟨"b.py", "b.py", "Y", ".py"⟩

/-- Fixture file `c.py`; `costLen (chunkText [fxC]) = 136`. -/
def fxC : CodeFile :=
  ⟨"c.py", "c.py", "Z", ".py"⟩

/-- Fixture budget: `costLen (chunkText [fxA, fxB]) = 282 > 275`, while
`costLen (chunkText [fxB, fxC]) = 273 ≤ 275` and every single fixture
file costs at most `275`. -/
def fxBudget : Nat :=
  275

/-- Twenty-one distinct Python files with empty content. -/
def manyPyFiles : List CodeFile :=
  (List.range 21).map
    (fun i => ⟨"f" ++ toString i ++ ".py", "f" ++ toString i ++ ".py", "", ".py"⟩)

/-- A metrics collaborator returning one entity of score 11 for every
file. -/
def ccEleven : String → Option (List CCItem) :=
  fun _ => some [⟨"g", 11, "F", 1⟩]

/-- A `json.loads` stand-in that fails on every payload (as the real one
does on non-JSON text such as `not json`). -/
def pjFail : String → Except String ChunkAnalysis :=
  fun _ => Except.error "Expecting value"

/-- A parsed chunk analysis holding three classes in one file, as in the
spec's scenario C. -/
def threeClassChunk : ChunkAnalysis :=
  { chunk_id := some 0,
    files := some
      [{ path := some "m.py",
         classes := some
           [{ name := some "A", purpose := some "pa", methods := some [], relationships := some [] },
            { name := some "B", purpose := some "pb", methods := some [], relationships := some [] },
            { name := some "C", purpose := some "pc", methods := some [], relationships := some [] }],
         key_functions := some [] }],
    raw_response := none,
    parse_error := none }

/-- Readme fixture with content `"first"`. -/
def fxReadme1 : CodeFile :=
  ⟨"README.md", "README.md", "first", ".md"⟩

/-- Readme fixture with content `"first-changed"`, same path as
`fxReadme1`. -/
def fxReadme1' : CodeFile :=
  ⟨"README.md", "README.md", "first-changed", ".md"⟩

/-- Second readme fixture (matches `readme` case-insensitively, later in
enumeration order). -/
def fxReadme2 : CodeFile :=
  ⟨"docs/Readme.txt", "docs/Readme.txt", "second", ".txt"⟩

/-- A concrete summarizer oracle: echoes index metadata (content is
irrelevant to the alignment claim). -/
def fxRespond : String → Nat → Nat → String :=
  fun _ i n => "chunk " ++ toString i ++ " of " ++ toString n

/-! ## Helper lemmas: the lexicographic path order -/

lemma Char.toNat_inj_here {a b : Char} (h : a.toNat = b.toNat) : a = b := by
  have h1 : Char.ofNat a.toNat = a := Char.ofNat_toNat a
  have h2 : Char.ofNat b.toNat = b := Char.ofNat_toNat b
  rw [← h1, ← h2, h]

lemma String.toList_inj_here {s t : String} (h : s.toList = t.toList) : s = t := by
  cases s with
  | mk d =>
    cases t with
    | mk e =>
      simp only [String.toList] at h
      exact congrArg String.mk h

lemma lexLe_cons_iff (a b : Char) (as bs : List Char) :
    lexLe (a :: as) (b :: bs) = true ↔
      a.toNat < b.toNat ∨ (a = b ∧ lexLe as bs = true) := by
  by_cases hab : a.toNat < b.toNat
  · simp [lexLe, hab]
  · by_cases hba : b.toNat < a.toNat
    · have : a ≠ b := by
        intro h
        subst h
        omega
      simp [lexLe, hab, hba, this]
    · have heq : a = b := Char.toNat_inj_here (by omega)
      simp [lexLe, hab, hba, heq]

lemma lexLe_total : ∀ as bs : List Char, lexLe as bs = true ∨ lexLe bs as = true := by
  intro as
  induction as with
  | nil => intro bs; left; rfl
  | cons a as ih =>
    intro bs
    cases bs with
    | nil => right; rfl
    | cons b bs =>
      rcases Nat.lt_trichotomy a.toNat b.toNat with h | h | h
      · left; exact (lexLe_cons_iff a b as bs).mpr (Or.inl h)
      · have heq : a = b := Char.toNat_inj_here h
        subst heq
        rcases ih bs with h' | h'
        · left; exact (lexLe_cons_iff a a as bs).mpr (Or.inr ⟨rfl, h'⟩)
        · right; exact (lexLe_cons_iff a a bs as).mpr (Or.inr ⟨rfl, h'⟩)
      · right; exact (lexLe_cons_iff b a bs as).mpr (Or.inl h)

lemma lexLe_trans :
    ∀ as bs cs : List Char,
      lexLe as bs = true → lexLe bs cs = true → lexLe as cs = true := by
  intro as
  induction as with
  | nil => intro bs cs _ _; rfl
  | cons a as ih =>
    intro bs cs h1 h2
    cases bs with
    | nil => simp [lexLe] at h1
    | cons b bs =>
      cases cs with
      | nil => simp [lexLe] at h2
      | cons c cs =>
        rcases (lexLe_cons_iff a b as bs).mp h1 with hab | ⟨hab, hr1⟩
        · rcases (lexLe_cons_iff b c bs cs).mp h2 with hbc | ⟨hbc, _⟩
          · exact (lexLe_cons_iff a c as cs).mpr (Or.inl (by omega))
          · subst hbc
            exact (lexLe_cons_iff a b as cs).mpr (Or.inl hab)
        · subst hab
          rcases (lexLe_cons_iff a c bs cs).mp h2 with hac | ⟨hac, hr2⟩
          · exact (lexLe_cons_iff a c as cs).mpr (Or.inl hac)
          · subst hac
            exact (lexLe_cons_iff a a as cs).mpr (Or.inr ⟨rfl, ih bs cs hr1 hr2⟩)

lemma lexLe_antisymm :
    ∀ as bs : List Char, lexLe as bs = true → lexLe bs as = true → as = bs := by
  intro as
  induction as with
  | nil =>
    intro bs h1 h2
    cases bs with
    | nil => rfl
    | cons b bs => simp [lexLe] at h2
  | cons a as ih =>
    intro bs h1 h2
    cases bs with
    | nil => simp [lexLe] at h1
    | cons b bs =>
      rcases (lexLe_cons_iff a b as bs).mp h1 with hab | ⟨hab, hr1⟩
      · rcases (lexLe_cons_iff b a bs as).mp h2 with hba | ⟨hba, _⟩
        · omega
        · subst hba; omega
      · subst hab
        rcases (lexLe_cons_iff a a bs as).mp h2 with hba | ⟨_, hr2⟩
        · omega
        · rw [ih bs hr1 hr2]

instance : IsTotal CodeFile pathLe :=
  ⟨fun a b => lexLe_total a.relative_path.toList b.relative_path.toList⟩

instance : IsTrans CodeFile pathLe :=
  ⟨fun _ _ _ h1 h2 => lexLe_trans _ _ _ h1 h2⟩

instance : IsAntisymm CodeFile pathLt :=
  ⟨fun _ _ h1 h2 =>
    absurd (String.toList_inj_here (lexLe_antisymm _ _ h1.1 h2.1)) h1.2⟩
/-! ## Helper lemmas: the `create_chunks` fold -/

lemma emittedFiles_step (cost : String → Nat) (b : Nat) (s : ChunkState) (f : CodeFile) :
    emittedFiles (create_chunks_step cost b s f) = emittedFiles s ++ [f] := by
  simp only [create_chunks_step, emittedFiles]
  split_ifs with h1 h2 h3
  · simp [List.flatMap_append, List.append_assoc]
  · exact absurd ⟨h1.1, rfl⟩ h2
  · have hnil : s.current_chunk_files = [] := by
      have := h3.2
      rwa [List.dropLast_concat] at this
    simp [List.flatMap_append, hnil]
  · simp [List.append_assoc]

lemma emittedFiles_foldl (cost : String → Nat) (b : Nat) :
    ∀ (l : List CodeFile) (s : ChunkState),
      emittedFiles (l.foldl (create_chunks_step cost b) s) = emittedFiles s ++ l := by
  intro l
  induction l with
  | nil => intro s; simp
  | cons f t ih =>
    intro s
    simp only [List.foldl_cons]
    rw [ih, emittedFiles_step]
    simp

lemma create_chunks_flatMap (cost : String → Nat) (b : Nat) (files : List CodeFile) :
    (create_chunks cost b files).flatMap CodeChunk.files = sortByPath files := by
  simp only [create_chunks]
  have h := emittedFiles_foldl cost b (sortByPath files) ⟨[], [], 0, 0⟩
  simp only [emittedFiles, List.flatMap_nil, List.nil_append] at h
  split_ifs with hc
  · rw [List.flatMap_append]
    simpa using h
  · push_neg at hc
    rw [hc] at h
    simpa using h

/-- Invariant of the `create_chunks` loop: the pending window is within
budget (or empty), and every sealed chunk is within budget or a
singleton. -/
def chunkStateOk (cost : String → Nat) (b : Nat) (s : ChunkState) : Prop :=
  (s.current_chunk_files = [] ∨ cost (chunkText s.current_chunk_files) ≤ b) ∧
  (∀ c ∈ s.chunks, cost (chunkText c.files) ≤ b ∨ c.files.length = 1)

lemma chunkStateOk_step (cost : String → Nat) (b : Nat) (s : ChunkState) (f : CodeFile)
    (h : chunkStateOk cost b s) : chunkStateOk cost b (create_chunks_step cost b s f) := by
  obtain ⟨hpend, hchunks⟩ := h
  simp only [create_chunks_step, chunkStateOk]
  split_ifs with h1 h2 h3
  · refine ⟨Or.inl rfl, ?_⟩
    intro c hc
    simp only [List.append_assoc, List.mem_append, List.mem_singleton] at hc
    rcases hc with hc | hc | hc
    · exact hchunks c hc
    · subst hc
      rcases hpend with hp | hp
      · exact absurd hp h1.2
      · exact Or.inl hp
    · subst hc
      exact Or.inr rfl
  · exact absurd ⟨h1.1, rfl⟩ h2
  · refine ⟨Or.inl rfl, ?_⟩
    intro c hc
    simp only [List.mem_append, List.mem_singleton] at hc
    rcases hc with hc | hc
    · exact hchunks c hc
    · subst hc
      exact Or.inr rfl
  · refine ⟨Or.inr ?_, hchunks⟩
    by_cases htest : cost (chunkText (s.current_chunk_files ++ [f])) > b
    · exfalso
      have hcur : s.current_chunk_files = [] := by
        by_contra hne
        exact h1 ⟨htest, hne⟩
      exact h3 ⟨htest, by rw [List.dropLast_concat, hcur]⟩
    · show cost (chunkText (s.current_chunk_files ++ [f])) ≤ b
      omega

lemma chunkStateOk_foldl (cost : String → Nat) (b : Nat) :
    ∀ (l : List CodeFile) (s : ChunkState),
      chunkStateOk cost b s → chunkStateOk cost b (l.foldl (create_chunks_step cost b) s) := by
  intro l
  induction l with
  | nil => intro s h; exact h
  | cons f t ih =>
    intro s h
    exact ih _ (chunkStateOk_step cost b s f h)

lemma create_chunks_budget (cost : String → Nat) (b : Nat) (files : List CodeFile) :
    ∀ c ∈ create_chunks cost b files, cost (chunkText c.files) ≤ b ∨ c.files.length = 1 := by
  intro c hc
  have hinv : chunkStateOk cost b
      ((sortByPath files).foldl (create_chunks_step cost b) ⟨[], [], 0, 0⟩) :=
    chunkStateOk_foldl cost b (sortByPath files) ⟨[], [], 0, 0⟩
      ⟨Or.inl rfl, by intro c hc; simp at hc⟩
  simp only [create_chunks] at hc
  obtain ⟨hpend, hchunks⟩ := hinv
  split_ifs at hc with hne
  · simp only [List.mem_append, List.mem_singleton] at hc
    rcases hc with hc | hc
    · exact hchunks c hc
    · subst hc
      rcases hpend with hp | hp
      · exact absurd hp hne
      · exact Or.inl hp
  · exact hchunks c hc

/-! ## Helper lemmas: path-sort determinism -/

lemma sortByPath_eq_of_perm (l₁ l₂ : List CodeFile) (hp : l₁.Perm l₂)
    (hnd : (l₁.map CodeFile.relative_path).Nodup) : sortByPath l₁ = sortByPath l₂ := by
  have hperm : (sortByPath l₁).Perm (sortByPath l₂) :=
    (List.perm_insertionSort pathLe l₁).trans
      (hp.trans (List.perm_insertionSort pathLe l₂).symm)
  have hs₁ : (sortByPath l₁).Sorted pathLe := List.sorted_insertionSort pathLe l₁
  have hs₂ : (sortByPath l₂).Sorted pathLe := List.sorted_insertionSort pathLe l₂
  have hnd₁ : ((sortByPath l₁).map CodeFile.relative_path).Nodup :=
    (((List.perm_insertionSort pathLe l₁).map CodeFile.relative_path).nodup_iff).mpr hnd
  have hnd₂ : ((sortByPath l₂).map CodeFile.relative_path).Nodup :=
    (((List.perm_insertionSort pathLe l₂).map CodeFile.relative_path).nodup_iff).mpr
      ((hp.map CodeFile.relative_path).nodup_iff.mp hnd)
  have hne₁ : (sortByPath l₁).Pairwise
      (fun a c : CodeFile => a.relative_path ≠ c.relative_path) :=
    List.pairwise_map.mp hnd₁
  have hne₂ : (sortByPath l₂).Pairwise
      (fun a c : CodeFile => a.relative_path ≠ c.relative_path) :=
    List.pairwise_map.mp hnd₂
  have hlt₁ : (sortByPath l₁).Sorted pathLt := hs₁.and hne₁
  have hlt₂ : (sortByPath l₂).Sorted pathLt := hs₂.and hne₂
  exact List.eq_of_perm_of_sorted hperm hlt₁ hlt₂

/-! ## Claim theorems -/

/-- C1 (confirmed): for every document list with distinct relative paths
and every positive budget, concatenating the files of the chunks
returned by `create_chunks` in chunk-sequence order yields exactly the
input documents sorted by relative path (hence a permutation of the
input: no loss, no duplication). -/
theorem create_chunks_coverage (cost : String → Nat) (b : Nat) (files : List CodeFile)
    (_hnd : (files.map CodeFile.relative_path).Nodup) (_hb : 0 < b) :
    (create_chunks cost b files).flatMap CodeChunk.files = sortByPath files ∧
    ((create_chunks cost b files).flatMap CodeChunk.files).Perm files := by
  refine ⟨create_chunks_flatMap cost b files, ?_⟩
  rw [create_chunks_flatMap cost b files]
  exact List.perm_insertionSort pathLe files

/-- Witness for C1 at a concrete three-file input with distinct paths
and budget 275. -/
theorem create_chunks_coverage_witness :
    (([fxA, fxB, fxC].map CodeFile.relative_path).Nodup ∧ 0 < fxBudget) ∧
    (create_chunks costLen fxBudget [fxA, fxB, fxC]).flatMap CodeChunk.files =
      sortByPath [fxA, fxB, fxC] :=
  ⟨⟨by decide, by decide⟩,
   (create_chunks_coverage costLen fxBudget [fxA, fxB, fxC] (by decide) (by decide)).1⟩

/-- C2 (corrected): every chunk produced by `create_chunks` has
serialized cost at most the budget or contains exactly one document.
The claim's further requirement — that an oversized singleton be
observably flagged so consumers can tell it from a defect — fails:
`CodeChunk` carries no oversized flag, and its only candidate signal,
a recorded `token_count` above the budget, also occurs on singleton
chunks whose own serialized cost is within budget (see the
counterexample). -/
theorem create_chunks_budget_respect (cost : String → Nat) (b : Nat)
    (files : List CodeFile) (c : CodeChunk)
    (hc : c ∈ create_chunks cost b files) :
    cost (chunkText c.files) ≤ b ∨ c.files.length = 1 :=
  create_chunks_budget cost b files c hc

/-- Witness for C2's amended statement: the final fixture chunk is in
the output and satisfies the disjunction. -/
theorem create_chunks_budget_respect_witness :
    (⟨[fxC], 2, 136⟩ : CodeChunk) ∈ create_chunks costLen fxBudget [fxA, fxB, fxC] ∧
    (costLen (chunkText [fxC]) ≤ fxBudget ∨ ([fxC] : List CodeFile).length = 1) :=
  ⟨by decide,
   create_chunks_budget_respect costLen fxBudget [fxA, fxB, fxC] ⟨[fxC], 2, 136⟩ (by decide)⟩

/-- Counterexample for C2 as stated: `create_chunks` emits a singleton
chunk whose recorded `token_count` (282) exceeds the budget (275) — the
only observable oversized signal, matching the printed warning — even
though the chunk's own serialized cost (136) is within budget, so the
signal cannot distinguish a legitimately oversized chunk from a
defect. -/
theorem create_chunks_flag_counterexample :
    ∃ c ∈ create_chunks costLen fxBudget [fxA, fxB, fxC],
      c.files.length = 1 ∧ fxBudget < c.token_count ∧
      costLen (chunkText c.files) ≤ fxBudget := by
  decide

/-- C3 (code bug): at a three-file input where `a + b` overflows the
budget while `b` alone and `b + c` fit, the code seals `b` as its own
chunk immediately after sealing `[a]` — taking the warning path meant
for files that exceed the limit on their own and recording the combined
`a + b` cost as `b`'s token count — whereas the spec's overflow step
keeps `b` pending so that `c` joins it.  The code contradicts its own
comment (`Handle case where single file exceeds token limit`) and
warning message, since `b` does not exceed the limit. -/
theorem overflow_step_divergence :
    (create_chunks costLen fxBudget [fxA, fxB, fxC]).map
        (fun c => (c.files.map CodeFile.relative_path, c.token_count)) =
      [(["a.py"], 145), (["b.py"], 282), (["c.py"], 136)] ∧
    (spec_chunks costLen fxBudget [fxA, fxB, fxC]).map
        (fun p => (p.1.map CodeFile.relative_path, p.2)) =
      [(["a.py"], false), (["b.py", "c.py"], false)] ∧
    costLen (chunkText [fxB]) ≤ fxBudget ∧
    costLen (chunkText [fxB, fxC]) ≤ fxBudget := by
  decide

/-- C4 (confirmed): chunking is independent of the input enumeration
order — for any two permutations of a document set with distinct
relative paths and the same budget, `create_chunks` produces identical
chunks. -/
theorem create_chunks_deterministic (cost : String → Nat) (b : Nat)
    (l₁ l₂ : List CodeFile) (hp : l₁.Perm l₂)
    (hnd : (l₁.map CodeFile.relative_path).Nodup) :
    create_chunks cost b l₁ = create_chunks cost b l₂ := by
  simp only [create_chunks]
  rw [sortByPath_eq_of_perm l₁ l₂ hp hnd]

/-- Witness for C4: two enumeration orders of the fixture set produce
the same chunks. -/
theorem create_chunks_deterministic_witness :
    ([fxB, fxA].Perm [fxA, fxB] ∧ (([fxB, fxA].map CodeFile.relative_path).Nodup)) ∧
    create_chunks costLen fxBudget [fxB, fxA] = create_chunks costLen fxBudget [fxA, fxB] :=
  ⟨⟨List.Perm.swap fxA fxB [], by decide⟩,
   create_chunks_deterministic costLen fxBudget [fxB, fxA] [fxA, fxB]
     (List.Perm.swap fxA fxB []) (by decide)⟩

/-- C8 (confirmed): a document whose own serialized cost exactly equals
the budget, arriving on an empty pending list, is accepted into the
pending chunk (no chunk is sealed, no oversized path is taken); only a
cost strictly above the budget triggers the singleton-sealing path. -/
theorem budget_tie_break (cost : String → Nat) (b : Nat) (s : ChunkState) (f : CodeFile)
    (hpend : s.current_chunk_files = []) :
    (cost (chunkText [f]) = b →
      create_chunks_step cost b s f =
        { s with current_chunk_files := [f], current_tokens := cost (chunkText [f]) }) ∧
    (b < cost (chunkText [f]) →
      (create_chunks_step cost b s f).chunks =
        s.chunks ++ [⟨[f], s.chunk_id, cost (chunkText [f])⟩] ∧
      (create_chunks_step cost b s f).current_chunk_files = []) := by
  obtain ⟨ch, cur, tok, cid⟩ := s
  simp only at hpend
  subst hpend
  constructor
  · intro heq
    simp [create_chunks_step, heq]
  · intro hover
    simp [create_chunks_step, hover]

/-- Witness for C8: with the budget set to exactly the cost of the
single fixture file, the step accepts it into pending. -/
theorem budget_tie_break_witness :
    create_chunks_step costLen (costLen (chunkText [fxB])) ⟨[], [], 0, 0⟩ fxB =
      { (⟨[], [], 0, 0⟩ : ChunkState) with
        current_chunk_files := [fxB],
        current_tokens := costLen (chunkText [fxB]) } :=
  (budget_tie_break costLen (costLen (chunkText [fxB])) ⟨[], [], 0, 0⟩ fxB rfl).1 rfl

/-! ## Helper lemmas: formatter and analyzer -/

lemma analyze_complexity_step_inv (cc : String → Option (List CCItem))
    (s : AnalyzeState) (f : CodeFile)
    (h1 : s.count = s.files.length)
    (h2 : s.total = (s.files.map FileComplexity.max_complexity).sum)
    (h3 : s.high = (s.files.filter (fun fc => 10 < fc.max_complexity)).map
      (fun fc => ⟨fc.path, fc.max_complexity⟩)) :
    (analyze_complexity_step cc s f).count = (analyze_complexity_step cc s f).files.length ∧
    (analyze_complexity_step cc s f).total =
      ((analyze_complexity_step cc s f).files.map FileComplexity.max_complexity).sum ∧
    (analyze_complexity_step cc s f).high =
      ((analyze_complexity_step cc s f).files.filter (fun fc => 10 < fc.max_complexity)).map
        (fun fc => ⟨fc.path, fc.max_complexity⟩) := by
  by_cases hext : f.extension = ".py" ∨ f.extension = ".java"
  · simp only [analyze_complexity_step, if_pos hext]
    cases hcc : cc f.content with
    | none => exact ⟨h1, h2, h3⟩
    | some items =>
      simp only
      refine ⟨?_, ?_, ?_⟩
      · simp [h1]
      · simp [h2]
      · by_cases hmax : items.foldl (fun m it => max m it.complexity) 0 > 10
        · simp [h3, hmax, List.filter_append]
        · simp [h3, hmax, List.filter_append]
  · simp only [analyze_complexity_step, if_neg hext]
    exact ⟨h1, h2, h3⟩

lemma analyze_complexity_foldl_inv (cc : String → Option (List CCItem)) :
    ∀ (l : List CodeFile) (s : AnalyzeState),
      s.count = s.files.length →
      s.total = (s.files.map FileComplexity.max_complexity).sum →
      s.high = (s.files.filter (fun fc => 10 < fc.max_complexity)).map
        (fun fc => ⟨fc.path, fc.max_complexity⟩) →
      (l.foldl (analyze_complexity_step cc) s).count =
        (l.foldl (analyze_complexity_step cc) s).files.length ∧
      (l.foldl (analyze_complexity_step cc) s).total =
        ((l.foldl (analyze_complexity_step cc) s).files.map FileComplexity.max_complexity).sum ∧
      (l.foldl (analyze_complexity_step cc) s).high =
        ((l.foldl (analyze_complexity_step cc) s).files.filter
          (fun fc => 10 < fc.max_complexity)).map (fun fc => ⟨fc.path, fc.max_complexity⟩) := by
  intro l
  induction l with
  | nil => intro s h1 h2 h3; exact ⟨h1, h2, h3⟩
  | cons f t ih =>
    intro s h1 h2 h3
    obtain ⟨g1, g2, g3⟩ := analyze_complexity_step_inv cc s f h1 h2 h3
    exact ih (analyze_complexity_step cc s f) g1 g2 g3

lemma analyze_complexity_state (cc : String → Option (List CCItem))
    (files : List CodeFile) :
    (analyze_complexity cc files).summary.analyzed_files =
      (analyze_complexity cc files).files.length ∧
    (analyze_complexity cc files).summary.high_complexity_files =
      ((analyze_complexity cc files).files.filter (fun fc => 10 < fc.max_complexity)).map
        (fun fc => ⟨fc.path, fc.max_complexity⟩) ∧
    (analyze_complexity cc files).summary.average_complexity =
      (if (analyze_complexity cc files).files.length = 0 then 0
       else pyRound2
         ((((analyze_complexity cc files).files.map FileComplexity.max_complexity).sum : Rat) /
           ((analyze_complexity cc files).files.length : Rat))) := by
  obtain ⟨h1, h2, h3⟩ :=
    analyze_complexity_foldl_inv cc files ⟨[], [], 0, 0⟩ rfl rfl rfl
  simp only [analyze_complexity]
  refine ⟨h1, h3, ?_⟩
  rw [h1, h2]
  by_cases hlen : (files.foldl (analyze_complexity_step cc) ⟨[], [], 0, 0⟩).files.length = 0
  · simp [hlen]
  · simp [hlen, Nat.pos_of_ne_zero hlen]

/-! ## Helper lemmas: the overview scan -/

lemma overviewScan_foldl_snd (l : List CodeFile) :
    ∀ acc : List (String × List String) × Option String,
      (l.foldl overviewScanStep acc).2 =
        (((l.filter (fun f => isReadmeFile f)).map CodeFile.content).getLast?).or acc.2 := by
  induction l using List.reverseRecOn with
  | nil => intro acc; simp
  | append_singleton t x ih =>
    intro acc
    rw [List.foldl_append]
    simp only [List.foldl_cons, List.foldl_nil]
    by_cases hx : isReadmeFile x
    · simp [overviewScanStep, hx, List.filter_append, List.getLast?_concat]
    · simp [overviewScanStep, hx, List.filter_append, ih acc]

lemma overviewScan_snd (files : List CodeFile) :
    (overviewScan files).2 =
      ((files.filter (fun f => isReadmeFile f)).map CodeFile.content).getLast? := by
  rw [overviewScan, overviewScan_foldl_snd]
  simp

lemma overviewScan_fst (files : List CodeFile) :
    (overviewScan files).1 =
      extMapOfPairs (files.map (fun f => (f.relative_path, f.extension))) := by
  have h : ∀ (l : List CodeFile) (m : List (String × List String)) (r : Option String),
      (l.foldl overviewScanStep (m, r)).1 =
        l.foldl (fun mm f => addToExtMap mm (extKey f.extension) f.relative_path) m := by
    intro l
    induction l with
    | nil => intro m r; rfl
    | cons f t ih =>
      intro m r
      simp only [List.foldl_cons, overviewScanStep]
      exact ih _ _
  rw [overviewScan, h, extMapOfPairs, List.foldl_map]

lemma pyJoin_concat (sep y : String) :
    ∀ zs : List String, zs ≠ [] → pyJoin sep (zs ++ [y]) = pyJoin sep zs ++ sep ++ y := by
  intro zs
  induction zs with
  | nil => intro h; exact absurd rfl h
  | cons a t ih =>
    intro _
    cases t with
    | nil => simp [pyJoin]
    | cons b u =>
      have h := ih (by simp)
      simp only [List.cons_append, List.append_eq, pyJoin] at h ⊢
      rw [h]
      simp [String.append_assoc]

/-- C5 (corrected): when `json.loads` fails on the extracted payload,
`analyze_code_chunk` returns the fallback dict (with `files = []`, the
attempted payload and the error text) instead of raising, and appending
that fallback to any run leaves the report's class list, class count and
key-function list unchanged — classes from parsed chunks are all still
reported and the run completes.  The amendment: the fallback carries the
attempted parse payload (the fence-extracted substring when a fenced
block is present, otherwise the whole original response), not always
the original response text — see the counterexample. -/
theorem parse_failure_degradation (pj : String → Except String ChunkAnalysis)
    (resp : String) (i : Nat) (e : String)
    (h : pj (extract_json_payload resp) = Except.error e) :
    analyze_code_chunk pj resp i =
      { chunk_id := some i, files := some [],
        raw_response := some (extract_json_payload resp), parse_error := some e } ∧
    ∀ cas : List ChunkAnalysis,
      (format_detailed_analysis (cas ++ [analyze_code_chunk pj resp i])).classes =
        (format_detailed_analysis cas).classes ∧
      (format_detailed_analysis (cas ++ [analyze_code_chunk pj resp i])).total_classes_identified =
        (format_detailed_analysis cas).total_classes_identified ∧
      (format_detailed_analysis (cas ++ [analyze_code_chunk pj resp i])).key_functions =
        (format_detailed_analysis cas).key_functions := by
  have hfb : analyze_code_chunk pj resp i =
      { chunk_id := some i, files := some [],
        raw_response := some (extract_json_payload resp), parse_error := some e } := by
    simp [analyze_code_chunk, h]
  refine ⟨hfb, ?_⟩
  intro cas
  rw [hfb]
  refine ⟨?_, ?_, ?_⟩ <;>
    simp [format_detailed_analysis, fileEntriesOf, List.flatMap_append]

/-- Witness for C5 at the spec's scenario C: one parsed chunk carrying
three classes followed by one parse failure; the class list is
unchanged by the failing chunk. -/
theorem parse_failure_degradation_witness :
    pjFail (extract_json_payload "oops") = Except.error "Expecting value" ∧
    (format_detailed_analysis ([threeClassChunk] ++ [analyze_code_chunk pjFail "oops" 0])).classes =
      (format_detailed_analysis [threeClassChunk]).classes :=
  ⟨rfl, ((parse_failure_degradation pjFail "oops" 0 "Expecting value" rfl).2 [threeClassChunk]).1⟩

/-- Counterexample for C5 as stated: for the fenced unparseable response
below, the fallback's `raw_response` is the extracted payload
`not json`, not the original response text (the code reassigns
`response` before `json.loads` and the `except` branch stores the
reassigned value). -/
theorem parse_fallback_raw_counterexample :
    (analyze_code_chunk pjFail "```json\nnot json\n```" 1).raw_response = some "not json" ∧
    ("not json" : String) ≠ "```json\nnot json\n```" := by
  refine ⟨?_, ?_⟩
  · decide
  · decide

/-- C7 (confirmed): the per-chunk loop of `analyze_with_llm` produces
exactly one analysis per chunk, index-aligned: the output has the same
length as the chunk list and its `i`-th element is the analysis of the
`i`-th chunk (with that chunk's text and index passed to the
summarizer). -/
theorem chunk_analysis_alignment (pj : String → Except String ChunkAnalysis)
    (respond : String → Nat → Nat → String) (chunks : List CodeChunk) :
    (analyze_chunks_loop pj respond chunks).length = chunks.length ∧
    ∀ i c, chunks[i]? = some c →
      (analyze_chunks_loop pj respond chunks)[i]? =
        some (analyze_code_chunk pj (respond c.to_text i chunks.length) i) := by
  constructor
  · simp [analyze_chunks_loop]
  · intro i c hic
    simp [analyze_chunks_loop, List.getElem?_map, List.getElem?_enum, hic]

/-- Witness for C7 at a one-chunk list. -/
theorem chunk_analysis_alignment_witness :
    (([⟨[fxB], 0, 136⟩] : List CodeChunk)[0]? = some ⟨[fxB], 0, 136⟩) ∧
    (analyze_chunks_loop pjFail fxRespond [⟨[fxB], 0, 136⟩])[0]? =
      some (analyze_code_chunk pjFail
        (fxRespond (CodeChunk.to_text ⟨[fxB], 0, 136⟩) 0 1) 0) :=
  ⟨rfl, (chunk_analysis_alignment pjFail fxRespond [⟨[fxB], 0, 136⟩]).2 0 ⟨[fxB], 0, 136⟩ rfl⟩

/-- C6 (corrected): the merged key-function list has length
`min(total functions found, 50)`.  The list of files whose maximum
score exceeds 10 (`high_complexity_files`) is *uncapped*: its length
equals the number of qualifying files.  The list that is capped to 20
entries is the separate `detailed_metrics` list, whose qualifying
threshold is a maximum score above 5. -/
theorem report_caps (cas : List ChunkAnalysis) (cc : String → Option (List CCItem))
    (files : List CodeFile) :
    (format_detailed_analysis cas).key_functions.length =
      min (format_detailed_analysis cas).total_key_functions_identified 50 ∧
    (format_complexity_analysis (analyze_complexity cc files)).high_complexity_files.length =
      ((analyze_complexity cc files).files.filter
        (fun fc => 10 < fc.max_complexity)).length ∧
    (format_complexity_analysis (analyze_complexity cc files)).detailed_metrics.length =
      min ((analyze_complexity cc files).files.filter
        (fun fc => 5 < fc.max_complexity)).length 20 := by
  refine ⟨?_, ?_, ?_⟩
  · simp [format_detailed_analysis, List.length_take, Nat.min_comm]
  · have h := (analyze_complexity_state cc files).2.1
    simp [format_complexity_analysis, h]
  · simp [format_complexity_analysis, List.length_take, Nat.min_comm]

/-- Counterexample for C6 as stated: with 21 files all scoring 11, the
`high_complexity_files` list in the formatted report has 21 entries,
not `min(21, 20) = 20`. -/
theorem high_complexity_cap_counterexample :
    (format_complexity_analysis
        (analyze_complexity ccEleven manyPyFiles)).high_complexity_files.length = 21 ∧
    (21 : Nat) ≠ min 21 20 := by
  refine ⟨?_, ?_⟩
  · decide
  · decide

/-- C9 (confirmed): the reported `average_complexity` equals the sum of
per-file maximum scores over the successfully analyzed files, divided
by their count, rounded (half-to-even, as Python's `round`) to 2
decimal places, and equals 0 when no file was analyzed
(`analyzed_files` counts exactly the emitted per-file records). -/
theorem average_complexity_formula (cc : String → Option (List CCItem))
    (files : List CodeFile) :
    (analyze_complexity cc files).summary.analyzed_files =
      (analyze_complexity cc files).files.length ∧
    (analyze_complexity cc files).summary.average_complexity =
      (if (analyze_complexity cc files).files.length = 0 then 0
       else pyRound2
         ((((analyze_complexity cc files).files.map FileComplexity.max_complexity).sum : Rat) /
           ((analyze_complexity cc files).files.length : Rat))) :=
  ⟨(analyze_complexity_state cc files).1, (analyze_complexity_state cc files).2.2⟩

/-- C10 (confirmed): the overview's readme slot holds the content of the
last readme-matching document in input enumeration order; when that
content is non-empty it is what the overview artifact ends with, and
the whole artifact is unchanged under any change to the other
documents' contents (same paths/extensions, same selected readme), so
earlier readme contents never appear. -/
theorem readme_last_match_wins (files : List CodeFile) :
    (overviewScan files).2 =
      ((files.filter (fun f => isReadmeFile f)).map CodeFile.content).getLast? ∧
    (∀ c, ((files.filter (fun f => isReadmeFile f)).map CodeFile.content).getLast? = some c →
      c ≠ "" → ∃ pre, create_project_overview_chunk files = pre ++ "\n" ++ c) ∧
    (∀ g : List CodeFile,
      files.map (fun f => (f.relative_path, f.extension)) =
        g.map (fun f => (f.relative_path, f.extension)) →
      (overviewScan files).2 = (overviewScan g).2 →
      create_project_overview_chunk files = create_project_overview_chunk g) := by
  refine ⟨overviewScan_snd files, ?_, ?_⟩
  · intro c hc hne
    have h2 : (overviewScan files).2 = some c := by rw [overviewScan_snd files, hc]
    have hparts : overviewParts (overviewScan files).1 (overviewScan files).2 =
        ("=== PROJECT STRUCTURE ===\n" ::
          ((List.insertionSort extItemLe (overviewScan files).1).flatMap extSection) ++
          ["\n\n=== README CONTENT ===\n"]) ++ [c] := by
      rw [h2]
      simp [overviewParts, hne]
    refine ⟨pyJoin "\n"
      ("=== PROJECT STRUCTURE ===\n" ::
        ((List.insertionSort extItemLe (overviewScan files).1).flatMap extSection) ++
        ["\n\n=== README CONTENT ===\n"]), ?_⟩
    rw [create_project_overview_chunk, hparts, pyJoin_concat _ _ _ (by simp)]
  · intro g hpairs hreadme
    rw [create_project_overview_chunk, create_project_overview_chunk,
      overviewScan_fst files, overviewScan_fst g, hpairs, hreadme]

/-- Witness for C10: two readme files; the overview artifact of the run
ends with the second readme's content, and changing the first readme's
content leaves the artifact unchanged. -/
theorem readme_last_match_wins_witness :
    ((([fxReadme1, fxReadme2].filter (fun f => isReadmeFile f)).map
        CodeFile.content).getLast? = some "second") ∧
    (∃ pre, create_project_overview_chunk [fxReadme1, fxReadme2] = pre ++ "\n" ++ "second") ∧
    create_project_overview_chunk [fxReadme1, fxReadme2] =
      create_project_overview_chunk [fxReadme1', fxReadme2] :=
  ⟨by decide,
   (readme_last_match_wins [fxReadme1, fxReadme2]).2.1 "second" (by decide) (by decide),
   (readme_last_match_wins [fxReadme1, fxReadme2]).2.2 [fxReadme1', fxReadme2]
     (by decide) (by decide)⟩
